import Mathlib

/-!
Verification of the wgsl-fuzz utility scripts.

The development embeds, in Lean, the three Python scripts of the repository:

* scripts/generateUniformityGraph.py — in particular its function
  extract_digraph, which scans compiler output for a GraphViz
  "digraph G ..." block, and the post-extraction check in main;
* scripts/extract_shader_from_job.py — prints the shaderText field of a
  JSON job file;
* scripts/replace_shader_in_job.py — overwrites the shaderText field of a
  JSON job file with the contents of a shader file.

Strings are modeled as Lean String values, line splitting follows the
semantics of Python str.splitlines, and the start-of-digraph regular
expression is unfolded into an explicit character scanner.  JSON documents
are modeled at the data level (the json module round-trips a document
through text faithfully; the scripts treat the format as pass-through).
-/

namespace WgslFuzz

/-- Characters that Python str.splitlines treats as line boundaries
(besides the two-character boundary CR LF, handled separately). -/
def isLineBreak (c : Char) : Bool :=
  c = '\n' || c = '\r' || c = '\x0b' || c = '\x0c' ||
  c = '\x1c' || c = '\x1d' || c = '\x1e' ||
  c = '\x85' || c = '\u2028' || c = '\u2029'

/-- Helper for `splitlines`: `cur` holds the characters of the current line
in reverse order. -/
def splitlinesAux (cur : List Char) : List Char → List (List Char)
  | [] => if cur.isEmpty then [] else [cur.reverse]
  | '\r' :: '\n' :: rest => cur.reverse :: splitlinesAux [] rest
  | c :: rest =>
    if isLineBreak c then cur.reverse :: splitlinesAux [] rest
    else splitlinesAux (c :: cur) rest

/-- Python str.splitlines: splits at every line boundary, treating CR LF as
a single boundary, and producing no trailing empty line when the string
ends with a boundary. -/
def splitlines (s : String) : List String :=
  (splitlinesAux [] s.data).map fun cs => String.mk cs

/-- Characters matched by the regular-expression class backslash-s on a
Python 3 str pattern: ASCII whitespace plus the Unicode whitespace
characters. -/
def isPySpace (c : Char) : Bool :=
  c = ' ' || c = '\t' || c = '\n' || c = '\r' || c = '\x0b' || c = '\x0c' ||
  c = '\x1c' || c = '\x1d' || c = '\x1e' || c = '\x1f' ||
  c = '\x85' || c = '\xa0' || c = '\u1680' ||
  (('\u2000').val ≤ c.val && c.val ≤ ('\u200a').val) ||
  c = '\u2028' || c = '\u2029' || c = '\u202f' || c = '\u205f' || c = '\u3000'

/-- The anchored match performed by
re.compile(r"^digraph\s+G\s*\x7b").match(line): the line starts with the
word digraph, then one or more whitespace characters, then G, then zero or
more whitespace characters, then an opening brace.  Since neither G nor the
opening brace is a whitespace character, the greedy quantifiers are
equivalent to maximal munch. -/
def graphStart (line : String) : Bool :=
  match line.data with
  | 'd' :: 'i' :: 'g' :: 'r' :: 'a' :: 'p' :: 'h' :: c :: rest =>
    isPySpace c &&
    (match rest.dropWhile isPySpace with
     | 'G' :: rest2 =>
       (match rest2.dropWhile isPySpace with
        | '\x7b' :: _ => true
        | _ => false)
     | _ => false)
  | _ => false

/-- The per-line depth update of extract_digraph:
line.count of the opening brace minus line.count of the closing brace. -/
def braceDelta (line : String) : Int :=
  (line.data.count '\x7b' : Int) - (line.data.count '\x7d' : Int)

/-- The loop of extract_digraph (generateUniformityGraph.py, lines 26-45),
with the mutable state (depth, in_graph, result) passed explicitly.  Each
iteration sets in_graph if the line matches the start pattern, appends the
line to the result when in_graph holds, updates the depth by the brace
count of the line, and breaks out of the loop as soon as the depth equals
zero — this last test is made on every line, whether or not in_graph has
been set. -/
def extractLoop : List String → Int → Bool → String → String
  | [], _, _, result => result
  | line :: rest, depth, in_graph, result =>
    let inGraph2 := in_graph || graphStart line
    let result2 := if inGraph2 then result ++ line else result
    let depth2 := depth + braceDelta line
    if depth2 = 0 then result2 else extractLoop rest depth2 inGraph2 result2

/-- extract_digraph from generateUniformityGraph.py: split the compiler
output into lines and run the scanning loop from depth 0, not in a graph,
with an empty result. -/
def extract_digraph (compiler_output : String) : String :=
  extractLoop (splitlines compiler_output) 0 false ""

/-- The post-extraction check in main of generateUniformityGraph.py
(lines 68-72): if the extracted graph is the empty string, print a
diagnostic and exit with status 1; otherwise continue with the graph. -/
def uniformityGraphMainCheck (tintStdout : String) : Except (Nat × String) String :=
  let graph := extract_digraph tintStdout
  if graph = "" then
    Except.error (1, "Could not find a digraph in the compiler output. Check that \x27TINT_DUMP_UNIFORMITY_GRAPH\x27 is set to 1 in \x27src/tint/lang/wgsl/resolver/uniformity.cc\x27")
  else
    Except.ok graph

/-- Sum of the per-line brace deltas of a list of lines: the cumulative
depth contributed by those lines. -/
def depthSum : List String → Int
  | [] => 0
  | line :: rest => braceDelta line + depthSum rest

/-- Whether, starting from depth `d`, the running depth reaches zero at the
end of some line of the list. -/
def hitsZero (d : Int) : List String → Bool
  | [] => false
  | line :: rest => (d + braceDelta line = 0) || hitsZero (d + braceDelta line) rest

/-- The prefix of the lines scanned by the loop once extraction has
started from depth `d`: every line up to and including the first one at
whose end the running depth is zero, or all lines when the depth never
returns to zero. -/
def takeUntilZero (d : Int) : List String → List String
  | [] => []
  | line :: rest =>
    line :: (if d + braceDelta line = 0 then [] else takeUntilZero (d + braceDelta line) rest)

/-- Concatenation of a list of lines without separators, the accumulation
policy of extract_digraph. -/
def concatLines : List String → String
  | [] => ""
  | line :: rest => line ++ concatLines rest

/-- Whether a list of lines is brace-balanced as a block starting at depth
`d`: the running depth is strictly positive at the end of every line but
the last, and zero at the end of the last line.  An empty list is not a
block. -/
def blockDepthOk (d : Int) : List String → Bool
  | [] => false
  | line :: rest =>
    match rest with
    | [] => d + braceDelta line = 0
    | _ :: _ => (decide (0 < d + braceDelta line)) && blockDepthOk (d + braceDelta line) rest

/-- A well-formed digraph block in the sense of the specification: a
nonempty list of consecutive lines whose first line matches the
digraph-start pattern and whose braces are balanced, closing exactly at
the last line. -/
def isBalancedBlock (block : List String) : Bool :=
  match block with
  | [] => false
  | first :: _ => graphStart first && blockDepthOk 0 block

/-- Whether a compiler output contains a well-formed digraph block: some
consecutive run of its lines is a balanced block.  Taken from the
specification data model, for comparison with what the code returns. -/
def containsDigraphBlock (s : String) : Bool :=
  (splitlines s).tails.any fun t => t.inits.any fun p => isBalancedBlock p

/-! ## JSON job files

The two job scripts load a JSON document, read or update its shaderText
field, and (for the replacer) write it back with indent=4.  The json
module round-trips a document through text faithfully, and the indentation
does not change the data, so documents are modeled at the data level.
Numbers are modeled as integers; neither script inspects any value other
than the shaderText string, so the carrier of numbers is irrelevant. -/

inductive Json where
  | null : Json
  | bool (b : Bool) : Json
  | num (n : Int) : Json
  | str (s : String) : Json
  | arr (elements : List Json) : Json
  | obj (fields : List (String × Json)) : Json

/-- A job: the top-level JSON object, a dictionary of fields in insertion
order. -/
def Job := List (String × Json)

/-- Python dictionary lookup job[k]: the value at the first occurrence of
the key, if any (keys of a dictionary produced by json.loads are
distinct). -/
def getField : Job → String → Option Json
  | [], _ => none
  | (k2, v2) :: rest, k => if k2 = k then some v2 else getField rest k

/-- Python dictionary assignment job[k] = v: an existing key keeps its
position and gets the new value; a new key is appended at the end. -/
def setField : Job → String → Json → Job
  | [], k, v => [(k, v)]
  | (k2, v2) :: rest, k, v =>
    if k2 = k then (k, v) :: rest else (k2, v2) :: setField rest k v

/-- replace_shader_in_job.py, lines 8-11, at the data level: load the job,
assign the shader file contents to its shaderText field, and write the
result back (serialization with indent=4 and reloading transport the data
unchanged). -/
def replace_shader_in_job (job : Job) (shaderText : String) : Job :=
  setField job "shaderText" (Json.str shaderText)

/-- extract_shader_from_job.py, line 8, at the data level: the text printed
for the shaderText field of the job.  print applied to a string prints
exactly that string; a missing field raises KeyError and a non-string value
prints its repr, and neither case is modeled. -/
def extract_shader_from_job (job : Job) : Option String :=
  match getField job "shaderText" with
  | some (Json.str s) => some s
  | _ => none

/-! ## Command-line prologue of the two job scripts

Both scripts first compare len(sys.argv) against the expected count and,
on a mismatch, print a usage line and call sys.exit(1) before any file is
opened.  sys.argv is modeled as the program name plus the list of
arguments; the file system as a map from path to contents; json.loads as a
map from contents to a Job.  The outcome records the lines printed to
standard output, whether sys.exit(1) was reached, and the files read and
written. -/

structure CliResult where
  stdout : List String
  exitedOne : Bool
  filesRead : List String
  filesWritten : List (String × Job)

/-- Top level of extract_shader_from_job.py: with any argument count other
than one, print the usage line and exit with status 1 touching no file;
otherwise read the job file and print its shaderText field. -/
def extract_shader_main (prog : String) (args : List String)
    (fs : String → String) (parse : String → Job) : CliResult :=
  if args.length ≠ 1 then
    { stdout := ["Usage: " ++ prog ++ " <job JSON file>"], exitedOne := true,
      filesRead := [], filesWritten := [] }
  else
    let path := args.headD ""
    { stdout := [(extract_shader_from_job (parse (fs path))).getD ""],
      exitedOne := false, filesRead := [path], filesWritten := [] }

/-- Top level of replace_shader_in_job.py: with any argument count other
than two, print the usage line and exit with status 1 touching no file;
otherwise read the job file and the shader file, and write back the job
with its shaderText field replaced. -/
def replace_shader_main (prog : String) (args : List String)
    (fs : String → String) (parse : String → Job) : CliResult :=
  if args.length ≠ 2 then
    { stdout := ["Usage: " ++ prog ++ " <job JSON file> <shader text file>"],
      exitedOne := true, filesRead := [], filesWritten := [] }
  else
    let jobPath := args.headD ""
    let shaderPath := args.getD 1 ""
    { stdout := [], exitedOne := false,
      filesRead := [jobPath, shaderPath],
      filesWritten := [(jobPath, replace_shader_in_job (parse (fs jobPath)) (fs shaderPath))] }

end WgslFuzz

/-! ## Helper lemmas about the scanning loop -/

namespace WgslFuzz

theorem extractLoop_no_match (lines : List String) :
    (∀ l ∈ lines, graphStart l = false) →
    ∀ d : Int, extractLoop lines d false "" = "" := by
  induction lines with
  | nil => intro _ d; rfl
  | cons line rest ih =>
    intro h d
    have h0 : graphStart line = false := h line (List.mem_cons_self line rest)
    simp only [extractLoop, h0, Bool.or_false, Bool.false_eq_true, if_false]
    split
    · rfl
    · exact ih (fun l hl => h l (List.mem_cons_of_mem line hl)) _

theorem extractLoop_break_early (l1 : List String) :
    (∀ l ∈ l1, graphStart l = false) →
    ∀ (l2 : List String) (d : Int), hitsZero d l1 = true →
    extractLoop (l1 ++ l2) d false "" = "" := by
  induction l1 with
  | nil => intro _ l2 d hz; simp [hitsZero] at hz
  | cons line rest ih =>
    intro h l2 d hz
    have h0 : graphStart line = false := h line (List.mem_cons_self line rest)
    simp only [List.cons_append, extractLoop, h0, Bool.or_false,
      Bool.false_eq_true, if_false]
    simp only [hitsZero, Bool.or_eq_true, decide_eq_true_eq] at hz
    split
    · rfl
    · rename_i hne
      rcases hz with hz | hz
    
      · exact absurd hz hne
      · exact ih (fun l hl => h l (List.mem_cons_of_mem line hl)) l2 _ hz

theorem hitsZero_of_depthSum (l : List String) :
    ∀ d : Int, l ≠ [] → d + depthSum l = 0 → hitsZero d l = true := by
  induction l with
  | nil => intro d hne _; exact absurd rfl hne
  | cons line rest ih =>
    intro d _ hsum
    simp only [hitsZero, Bool.or_eq_true, decide_eq_true_eq]
    cases rest with
    | nil =>
      left
      simp only [depthSum] at hsum
      omega
    | cons r2 rest2 =>
      by_cases hz : d + braceDelta line = 0
      · exact Or.inl hz
      · right
        apply ih
        · exact List.cons_ne_nil r2 rest2
        · simp only [depthSum] at hsum ⊢
          omega

theorem extractLoop_in_graph (lines : List String) :
    ∀ (d : Int) (r : String),
    extractLoop lines d true r = r ++ concatLines (takeUntilZero d lines) := by
  induction lines with
  | nil =>
    intro d r
    simp [extractLoop, takeUntilZero, concatLines, String.append_empty]
  | cons line rest ih =>
    intro d r
    simp only [extractLoop, Bool.true_or, if_true, takeUntilZero]
    split
    · rename_i hz
      simp [hz, concatLines, String.append_empty, String.append_assoc]
    · rename_i hne
      rw [ih]
      simp only [if_neg hne, concatLines, String.append_assoc]

theorem takeUntilZero_block (bl : List String) :
    ∀ (d : Int) (l2 : List String), blockDepthOk d bl = true →
    takeUntilZero d (bl ++ l2) = bl := by
  induction bl with
  | nil => intro d l2 hb; simp [blockDepthOk] at hb
  | cons line rest ih =>
    intro d l2 hb
    cases rest with
    | nil =>
      simp only [blockDepthOk, decide_eq_true_eq] at hb
      simp [takeUntilZero, hb]
    | cons r2 rest2 =>
      simp only [blockDepthOk, Bool.and_eq_true, decide_eq_true_eq] at hb
      have hne : ¬ d + braceDelta line = 0 := by omega
      have hih := ih (d + braceDelta line) l2 hb.2
      simp only [List.cons_append, takeUntilZero, if_neg hne] at hih ⊢
      rw [hih]

theorem extract_digraph_first_match (s : String) (first : String) (rest : List String) :
    splitlines s = first :: rest → graphStart first = true →
    extract_digraph s = concatLines (takeUntilZero 0 (splitlines s)) := by
  intro hs hm
  unfold extract_digraph
  rw [hs]
  simp only [extractLoop, hm, Bool.or_true, if_true, takeUntilZero]
  split
  · rename_i hz
    simp [hz, concatLines, String.append_empty, String.empty_append]
  · rename_i hne
    rw [extractLoop_in_graph]
    simp only [if_neg hne, concatLines, String.empty_append]

end WgslFuzz

/-! ## Helper lemmas about dictionary field access -/

namespace WgslFuzz

theorem getField_setField_same (job : Job) (k : String) (v : Json) :
    getField (setField job k v) k = some v := by
  induction job with
  | nil => simp [setField, getField]
  | cons kv rest ih =>
    obtain ⟨k2, v2⟩ := kv
    by_cases hk : k2 = k
    · simp [setField, getField, hk]
    · simp [setField, getField, hk, ih]

theorem getField_setField_other (job : Job) (k k2 : String) (v : Json) (h : k2 ≠ k) :
    getField (setField job k v) k2 = getField job k2 := by
  induction job with
  | nil => simp [setField, getField, Ne.symm h]
  | cons kv rest ih =>
    obtain ⟨k3, v3⟩ := kv
    by_cases hk : k3 = k
    · subst hk
      simp [setField, getField, Ne.symm h]
    · simp [setField, getField, hk, ih]

end WgslFuzz

/-! ## The claims -/

namespace WgslFuzz

/-- Claim C1: the claim states that on the compiler output consisting of
the five lines foo, digraph G \x7b, a->b;, \x7d, bar, extract_digraph
returns the block lines concatenated.  On this input the code in fact
returns the empty string: the depth test fires at the end of the first
line (foo contributes no braces, so the running depth is zero) and the
loop breaks before extraction has started. -/
theorem c1_scenario_foo_digraph :
    extract_digraph "foo\ndigraph G \x7b\na->b;\n\x7d\nbar" = "" ∧
    extract_digraph "foo\ndigraph G \x7b\na->b;\n\x7d\nbar" ≠ "digraph G \x7ba->b;\x7d" := by
  constructor
  · decide
  · decide

/-- Claim C2: the claim states that scanning is never terminated while
extraction has not yet started.  On the input below, which contains a
well-formed digraph block preceded by one brace-free line, the loop breaks
at that first line — before extraction starts — and returns the empty
string instead of the block. -/
theorem c2_break_before_start :
    containsDigraphBlock "foo\ndigraph G \x7b\n\x7d" = true ∧
    extract_digraph "foo\ndigraph G \x7b\n\x7d" = "" := by
  constructor
  · decide
  · decide

/-- Claim C5: for every compiler output in which no line matches the
digraph-start pattern, extract_digraph returns the empty string: the
in_graph flag is never set, so nothing is ever appended to the result. -/
theorem c5_no_match_empty (s : String)
    (h : ∀ l ∈ splitlines s, graphStart l = false) :
    extract_digraph s = "" := by
  unfold extract_digraph
  exact extractLoop_no_match (splitlines s) h 0

theorem c5_no_match_empty_witness :
    (∀ l ∈ splitlines "foo\nbar", graphStart l = false) ∧
    extract_digraph "foo\nbar" = "" :=
  ⟨by decide, c5_no_match_empty "foo\nbar" (by decide)⟩

/-- Claim C6: once the first line of the input matches the digraph-start
pattern, the result of extract_digraph is exactly the concatenation of the
lines up to and including the first line at whose end the cumulative brace
depth is zero (all lines when the depth never returns to zero): scanning
does not stop at an inner closing brace, but only when the cumulative
depth returns to zero, so nested subgraphs are included. -/
theorem c6_stops_only_at_depth_zero (s first : String) (rest : List String)
    (hsplit : splitlines s = first :: rest) (hmatch : graphStart first = true) :
    extract_digraph s = concatLines (takeUntilZero 0 (splitlines s)) :=
  extract_digraph_first_match s first rest hsplit hmatch

theorem c6_nested_witness :
    extract_digraph "digraph G \x7b\nsubgraph \x7b\na -> b\n\x7d\n\x7d\nafter" =
      "digraph G \x7bsubgraph \x7ba -> b\x7d\x7d" :=
  (c6_stops_only_at_depth_zero "digraph G \x7b\nsubgraph \x7b\na -> b\n\x7d\n\x7d\nafter"
    "digraph G \x7b" ["subgraph \x7b", "a -> b", "\x7d", "\x7d", "after"]
    (by decide) (by decide)).trans (by decide)

/-- Claim C10: whenever the running total of opening minus closing braces
over the lines equals zero at the end of some line, all lines so far not
matching the digraph-start pattern, extract_digraph returns the empty
string — regardless of any digraph block occurring later in the input. -/
theorem c10_balanced_prelude_empty (s : String) (l1 l2 : List String)
    (hsplit : splitlines s = l1 ++ l2) (hne : l1 ≠ [])
    (hnomatch : ∀ l ∈ l1, graphStart l = false)
    (hsum : depthSum l1 = 0) :
    extract_digraph s = "" := by
  unfold extract_digraph
  rw [hsplit]
  apply extractLoop_break_early l1 hnomatch l2 0
  apply hitsZero_of_depthSum l1 0 hne
  omega

theorem c10_witness :
    (splitlines "no braces here\ndigraph G \x7b\n\x7d" =
        ["no braces here"] ++ ["digraph G \x7b", "\x7d"] ∧
      ["no braces here"] ≠ ([] : List String) ∧
      (∀ l ∈ ["no braces here"], graphStart l = false) ∧
      depthSum ["no braces here"] = 0) ∧
    extract_digraph "no braces here\ndigraph G \x7b\n\x7d" = "" :=
  ⟨⟨by decide, by decide, by decide, by decide⟩,
   c10_balanced_prelude_empty "no braces here\ndigraph G \x7b\n\x7d"
     ["no braces here"] ["digraph G \x7b", "\x7d"]
     (by decide) (by decide) (by decide) (by decide)⟩

end WgslFuzz

namespace WgslFuzz

/-- Claim C3, counterexamples: the first input begins with a well-formed
balanced digraph block whose text (as a substring of the input) is
digraph G \x7b, newline, a, newline, \x7d, yet extract_digraph does not
return that text: the newlines are dropped by the line-accumulation
policy.  The second input contains the same well-formed block preceded by
one brace-free line, and extract_digraph returns the empty string rather
than the block. -/
theorem c3_counterexample :
    (containsDigraphBlock "digraph G \x7b\na\n\x7d" = true ∧
      extract_digraph "digraph G \x7b\na\n\x7d" ≠ "digraph G \x7b\na\n\x7d") ∧
    (containsDigraphBlock "foo\ndigraph G \x7b\na\n\x7d" = true ∧
      extract_digraph "foo\ndigraph G \x7b\na\n\x7d" = "") := by
  refine ⟨⟨by decide, by decide⟩, by decide, by decide⟩

/-- Claim C3 as amended: for every compiler output that begins with a
well-formed, balanced brace-delimited block whose first line matches the
digraph-start pattern, extract_digraph returns that block's lines
concatenated without separators. -/
theorem c3_block_lines_concatenated (s : String) (block rest : List String)
    (hsplit : splitlines s = block ++ rest) (hblock : isBalancedBlock block = true) :
    extract_digraph s = concatLines block := by
  cases block with
  | nil => simp [isBalancedBlock] at hblock
  | cons first more =>
    simp only [isBalancedBlock, Bool.and_eq_true] at hblock
    have h1 : splitlines s = first :: (more ++ rest) := by simpa using hsplit
    rw [extract_digraph_first_match s first (more ++ rest) h1 hblock.1, hsplit,
      takeUntilZero_block (first :: more) 0 rest hblock.2]

theorem c3_block_witness :
    (splitlines "digraph G \x7b\na\n\x7d\ntrail" =
        ["digraph G \x7b", "a", "\x7d"] ++ ["trail"] ∧
      isBalancedBlock ["digraph G \x7b", "a", "\x7d"] = true) ∧
    extract_digraph "digraph G \x7b\na\n\x7d\ntrail" =
      concatLines ["digraph G \x7b", "a", "\x7d"] :=
  ⟨⟨by decide, by decide⟩,
   c3_block_lines_concatenated "digraph G \x7b\na\n\x7d\ntrail"
     ["digraph G \x7b", "a", "\x7d"] ["trail"] (by decide) (by decide)⟩

/-- Claim C4: the claim states that extract_digraph returns the empty
string if and only if its input contains no digraph block.  The input
below contains a well-formed digraph block, yet extract_digraph returns
the empty string (the loop breaks at the first, brace-free line), and the
caller in main consequently takes the error path: it prints the diagnostic
and exits with status 1 even though a digraph was present.  The second
half of the claim — empty extraction result leads to the diagnostic and
exit status 1 — is what uniformityGraphMainCheck shows here. -/
theorem c4_empty_despite_block :
    containsDigraphBlock "bar\ndigraph G \x7b\n\x7d" = true ∧
    extract_digraph "bar\ndigraph G \x7b\n\x7d" = "" ∧
    uniformityGraphMainCheck "bar\ndigraph G \x7b\n\x7d" =
      Except.error (1, "Could not find a digraph in the compiler output. Check that \x27TINT_DUMP_UNIFORMITY_GRAPH\x27 is set to 1 in \x27src/tint/lang/wgsl/resolver/uniformity.cc\x27") := by
  refine ⟨by decide, by decide, ?_⟩
  rfl

/-- Claim C7: replacing the shaderText field of any job with a shader text
v and then extracting the shaderText field of the resulting job yields
exactly v. -/
theorem c7_round_trip (job : Job) (v : String) :
    extract_shader_from_job (replace_shader_in_job job v) = some v := by
  unfold extract_shader_from_job replace_shader_in_job
  rw [getField_setField_same]

/-- Claim C8: the replacer changes only the shaderText field; the value of
every other field of the job is unchanged. -/
theorem c8_other_fields_unchanged (job : Job) (v : String) (k : String)
    (h : k ≠ "shaderText") :
    getField (replace_shader_in_job job v) k = getField job k :=
  getField_setField_other job "shaderText" k (Json.str v) h

theorem c8_other_fields_witness :
    "mode" ≠ "shaderText" ∧
    getField (replace_shader_in_job
        [("mode", Json.bool true), ("shaderText", Json.str "old")] "new") "mode" =
      getField [("mode", Json.bool true), ("shaderText", Json.str "old")] "mode" :=
  ⟨by decide,
   c8_other_fields_unchanged
     [("mode", Json.bool true), ("shaderText", Json.str "old")] "new" "mode" (by decide)⟩

/-- Claim C9: each of the two job scripts, when given a wrong number of
command-line arguments (the extractor requires exactly one, the replacer
exactly two), prints its usage line to standard output and exits with
status 1, reading and writing no file. -/
theorem c9_wrong_arg_count_usage :
    (∀ (prog : String) (args : List String) (fs : String → String) (parse : String → Job),
      args.length ≠ 1 →
      extract_shader_main prog args fs parse =
        ⟨["Usage: " ++ prog ++ " <job JSON file>"], true, [], []⟩) ∧
    (∀ (prog : String) (args : List String) (fs : String → String) (parse : String → Job),
      args.length ≠ 2 →
      replace_shader_main prog args fs parse =
        ⟨["Usage: " ++ prog ++ " <job JSON file> <shader text file>"], true, [], []⟩) := by
  constructor
  · intro prog args fs parse h
    simp [extract_shader_main, h]
  · intro prog args fs parse h
    simp [replace_shader_main, h]

theorem c9_two_args_witness :
    List.length ["job.json", "extra"] ≠ 1 ∧
    extract_shader_main "extract_shader_from_job.py" ["job.json", "extra"]
        (fun _ => "") (fun _ => ([] : Job)) =
      ⟨["Usage: " ++ "extract_shader_from_job.py" ++ " <job JSON file>"], true, [], []⟩ :=
  ⟨by decide,
   c9_wrong_arg_count_usage.1 "extract_shader_from_job.py" ["job.json", "extra"]
     (fun _ => "") (fun _ => ([] : Job)) (by decide)⟩

end WgslFuzz
